import Mathlib

set_option maxHeartbeats 1000000

/-!
Shallow embedding of the FOSSology scheduler core,
src/src/scheduler/agent/scheduler.c.

scheduler.c is the authority for update_scheduler, chld_sig, prnt_sig,
get_locked_pid, lock_scheduler, set_usr_grp and the lock check in main.
Collaborators that live outside src (agent.c, host.c, job.c, event.c,
the OS) are modelled from the spec where the doc comments say so.
-/

namespace Fossology

/-- A job as the scheduler sees it: job_type(j) is modelled by the
field typ (meta-agent type names are numbered). -/
structure Job where
  id : Nat
  typ : Nat
deriving DecidableEq

/-- Modelled from the spec: host.c is not under src; a host per the data
model of the spec carries a concurrency bound and a running count. -/
structure Host where
  hid : Nat
  maxAgents : Nat
  runningAgents : Nat
deriving DecidableEq

/-- Modelled from the spec: agent.c is not under src; a live agent records
its process id, its job, the job's type and the host it was placed on. -/
structure Agent where
  pid : Nat
  jobId : Nat
  jobTyp : Nat
  hostId : Option Nat
deriving DecidableEq

/-- The scheduler state touched by update_scheduler: the static locals j
(the deferred job slot) and lockout, the global closing flag, the job
queue consumed by next_job, and the registries behind num_agents,
active_jobs, is_exclusive and get_host. The terminated flag models
event_loop_terminate having been called. -/
structure SchedState where
  exclTypes : List Nat
  hosts : List Host
  pending : List Job
  agents : List Agent
  running : List Job
  deferred : Option Job
  lockout : Bool
  closing : Bool
  terminated : Bool
  nextPid : Nat
deriving DecidableEq

/-- Modelled from the spec: is_exclusive(type) asks the meta-agent
registry (agent.c, not under src) for the SAG_EXCLUSIVE flag. -/
def is_exclusive (s : SchedState) (t : Nat) : Bool :=
  s.exclTypes.contains t

/-- num_agents(): size of the live-agent registry (agent.c, not under src). -/
def num_agents (s : SchedState) : Nat :=
  s.agents.length

/-- Modelled from the spec: active_jobs() (job.c, not under src) counts the
jobs that have been launched and have not yet finished; a claimed but
still deferred job is not counted, matching the tick algorithm of the
spec in which the drain test can succeed while a job sits deferred. -/
def active_jobs (s : SchedState) : Nat :=
  s.running.length

/-- Modelled from the spec: get_host(slots) (host.c, not under src) returns
the first host, in registration order, with the asked free capacity. -/
def get_host (s : SchedState) (slots : Nat) : Option Host :=
  s.hosts.find? (fun h => decide (h.runningAgents + slots ≤ h.maxAgents))

/-- Increment the running count of the host with the given id. -/
def bumpHost (hs : List Host) (hid : Nat) : List Host :=
  hs.map (fun h =>
    if h.hid = hid then { h with runningAgents := h.runningAgents + 1 } else h)

/-- Modelled from the spec: agent_init(host, j, 0) (agent.c, not under src)
spawns an agent for the job on the host: the agent becomes live, the job
running, the host's count grows. scheduler.c may pass a NULL host
(get_host can fail and the call site never checks); the real agent_init's
behaviour on NULL is not in src, so per the spec's NO_HOST_CAPACITY error
no agent is created then, and the returned Option Host lets the caller
record which host, if any, the call was made with. -/
def agent_init (s : SchedState) (j : Job) : SchedState × Option Host :=
  match get_host s 1 with
  | some h =>
    ({ s with
        agents := s.agents ++ [⟨s.nextPid, j.id, j.typ, some h.hid⟩],
        running := s.running ++ [j],
        hosts := bumpHost s.hosts h.hid,
        nextPid := s.nextPid + 1 }, some h)
  | none => (s, none)

/-- The pull loop of update_scheduler: while((j = next_job()) != NULL).
next_job is modelled from the spec as popping the head of the pending
queue. Returns the state after the loop, the agent_init calls made in
order (host argument and job), and the final value of the static j:
some e when the loop broke on an exclusive job e, none when the queue
was exhausted. -/
def pullGo : SchedState → List Job → SchedState × List (Option Host × Job) × Option Job
  | s, [] => ({ s with pending := [] }, [], none)
  | s, j :: rest =>
    if is_exclusive s j.typ then
      ({ s with pending := rest }, [], some j)
    else
      let la := agent_init s j
      let r := pullGo la.1 rest
      (r.1, (la.2, j) :: r.2.1, r.2.2)

/-- Result of one tick: the new state and the agent_init calls made. -/
structure TickResult where
  state : SchedState
  launches : List (Option Host × Job)
deriving DecidableEq

/-- The last clause of update_scheduler, scheduler.c lines 200-205:
if(j != NULL && n_agents == 0 && n_jobs == 0) launch j, set lockout,
clear j. n_agents and n_jobs are the stale values read at tick entry.
pr carries the state after the pull section, the agent_init calls made
so far, and the value of the static j. -/
def tick_fin (n_agents n_jobs : Nat)
    (pr : SchedState × List (Option Host × Job) × Option Job) : TickResult :=
  let s2 := { pr.1 with deferred := pr.2.2 }
  match pr.2.2 with
  | some j =>
    if n_agents = 0 ∧ n_jobs = 0 then
      let la := agent_init s2 j
      ⟨{ la.1 with lockout := true, deferred := none }, pr.2.1 ++ [(la.2, j)]⟩
    else ⟨s2, pr.2.1⟩
  | none => ⟨s2, pr.2.1⟩

/-- The body of update_scheduler after its termination test, scheduler.c
lines 182-205: clear lockout when the (stale) counts are drained; when
the static j is empty and lockout is off, run the pull loop; then the
final clause. -/
def tick_rest (s : SchedState) (n_agents n_jobs : Nat) : TickResult :=
  let s1 := if s.lockout = true ∧ n_agents = 0 ∧ n_jobs = 0 then
              { s with lockout := false } else s
  let pr := if s1.deferred = none ∧ s1.lockout = false then
              pullGo s1 s1.pending
            else (s1, [], s1.deferred)
  tick_fin n_agents n_jobs pr

/-- update_scheduler, scheduler.c lines 166-206, translated clause by
clause. n_agents and n_jobs are read once at entry, as in the source
(int n_agents = num_agents(); int n_jobs = active_jobs();), and every
later test reuses these possibly stale values. The commented-out no-host
path of the source is absent here too: agent_init is called with
whatever get_host(1) returned. -/
def update_scheduler (s : SchedState) : TickResult :=
  let n_agents := num_agents s
  let n_jobs := active_jobs s
  if s.closing = true ∧ n_agents = 0 ∧ n_jobs = 0 then
    ⟨{ s with terminated := true }, []⟩
  else
    tick_rest s n_agents n_jobs

/-- Remove a dead agent: the agent leaves the registry, its job resolves
and leaves the running set, the host count drops. Modelled from the
spec's notify_death contract (agent.c is not under src). -/
def reapAgent (s : SchedState) (a : Agent) : SchedState :=
  { s with
      agents := s.agents.erase a,
      running := s.running.filter (fun j => decide (j.id ≠ a.jobId)),
      hosts := match a.hostId with
               | some hid => s.hosts.map (fun h =>
                   if h.hid = hid then { h with runningAgents := h.runningAgents - 1 } else h)
               | none => s.hosts }

/-- The event/tick step relation of the scheduler: a tick runs
update_scheduler; a database update can put a new job on the queue; a
close event sets the closing flag (scheduler_close_event); an agent
death retires a live agent. -/
inductive SchedulerStep : SchedState → SchedState → Prop
  | tick (s : SchedState) : SchedulerStep s (update_scheduler s).state
  | newJob (s : SchedState) (j : Job) :
      SchedulerStep s { s with pending := s.pending ++ [j] }
  | close (s : SchedState) : SchedulerStep s { s with closing := true }
  | death (s : SchedState) (a : Agent) (h : a ∈ s.agents) :
      SchedulerStep s (reapAgent s a)

/-- Concrete configuration: meta-agent type 1 is EXCLUSIVE, type 0 is not;
one host with room for four agents; nothing live, nothing queued. -/
def state0 : SchedState :=
  { exclTypes := [1], hosts := [⟨0, 4, 0⟩], pending := [], agents := [],
    running := [], deferred := none, lockout := false, closing := false,
    terminated := false, nextPid := 1 }

/-- A job of the non-exclusive type 0. -/
def jobA : Job := ⟨1, 0⟩

/-- A job of the EXCLUSIVE type 1. -/
def jobB : Job := ⟨2, 1⟩

/-- state0 after the queue delivers jobA. -/
def state1 : SchedState := { state0 with pending := state0.pending ++ [jobA] }

/-- state1 after the queue delivers jobB: a non-exclusive job ahead of an
exclusive one, nothing live. -/
def state2 : SchedState := { state1 with pending := state1.pending ++ [jobB] }

/-- The state one tick after state2. -/
def statePost : SchedState := (update_scheduler state2).state

/-- A drained state whose queue holds only the exclusive jobB. -/
def stateE : SchedState := { state0 with pending := [jobB] }

/-- A state with one live agent and its running job on a full host, and two
non-exclusive jobs waiting: get_host(1) has no host to offer. -/
def stateNoHost : SchedState :=
  { exclTypes := [1], hosts := [⟨0, 1, 1⟩], pending := [⟨3, 0⟩, ⟨4, 0⟩],
    agents := [⟨10, 9, 0, some 0⟩], running := [⟨9, 0⟩], deferred := none,
    lockout := false, closing := false, terminated := false, nextPid := 11 }

/-- A drained closing state: the termination branch of the tick fires. -/
def stateClose : SchedState := { state0 with closing := true }

/- ************************************************************************ -/
/- chld_sig, scheduler.c lines 86-106                                       -/
/- ************************************************************************ -/

/-- The events of the scheduler loop that the handlers enqueue via
event_signal; agent_death carries the batch of reaped pids. -/
inductive SchedEvent where
  | agent_death (pids : List Nat)
  | agent_update
  | database_update
  | scheduler_close
  | config_reload
deriving DecidableEq

/-- The store loop pid_list[idx++] = n of chld_sig: successive List.set
writes starting at the given index. An out-of-range set is a no-op in
this model, so a write that stayed in the allocation is visible in the
result and a write that did not is lost. -/
def writeAll (l : List Nat) (idx : Nat) : List Nat → List Nat
  | [] => l
  | p :: ps => writeAll (l.set idx p) (idx + 1) ps

/-- chld_sig, given the number of live agents at entry (num_agents()) and
the pids the waitpid(-1, WNOHANG) loop returns before running out of
dead children. g_new0 zero-fills the num_agents()+1 slots; the handler
then stores each reaped pid at pid_list[idx++] and signals one
agent_death_event carrying pid_list. -/
def chld_sig (numAgents : Nat) (dead : List Nat) : List Nat × List SchedEvent :=
  let pid_list := writeAll (List.replicate (numAgents + 1) 0) 0 dead
  (pid_list, [SchedEvent.agent_death pid_list])

/- ************************************************************************ -/
/- prnt_sig, scheduler.c lines 120-146                                      -/
/- ************************************************************************ -/

/-- The signals prnt_sig handles. -/
inductive Sig where
  | SIGALRM
  | SIGTERM
  | SIGQUIT
  | SIGINT
  | SIGHUP
deriving DecidableEq

/-- The observable actions a handler body can take: enqueue an event via
event_signal, call load_config directly (which clears and reloads the
host and meta-agent registries at once, scheduler.c lines 514-518),
re-arm the alarm, or write a log line. -/
inductive HandlerAction where
  | enqueue (e : SchedEvent)
  | call_load_config
  | set_alarm (secs : Nat)
  | log
deriving DecidableEq

/-- CHECK_TIME comes from scheduler.h, which is not under src; no claim
depends on its value. -/
def CHECK_TIME : Nat := 120

/-- prnt_sig translated case by case from the switch on signo. -/
def prnt_sig : Sig → List HandlerAction
  | .SIGALRM => [.log, .enqueue .agent_update, .enqueue .database_update,
                 .set_alarm CHECK_TIME]
  | .SIGTERM => [.log, .enqueue .scheduler_close]
  | .SIGQUIT => [.log, .enqueue .scheduler_close]
  | .SIGINT  => [.log, .enqueue .scheduler_close]
  | .SIGHUP  => [.call_load_config]

/- ************************************************************************ -/
/- the process lock: get_locked_pid, lock_scheduler, main's guard           -/
/- ************************************************************************ -/

/-- The world the lock code touches: the shared-memory object named
PROCESS_NAME (none when absent, otherwise its digit contents), the set
of pids for which kill(pid, 0) succeeds, and the calling process's pid. -/
structure LockWorld where
  shm : Option (List Nat)
  livePids : List Nat
  myPid : Nat
deriving DecidableEq

/-- atoi on the buffer read from the lock: the contents written by the
lock are nine decimal digits followed by NUL, so atoi folds the digits. -/
def atoi (ds : List Nat) : Nat :=
  ds.foldl (fun a d => a * 10 + d) 0

/-- sprintf(buf, "%-9.9d", pid): nine zero-padded decimal digits, for
pids below 10^9. -/
def fmt9 (n : Nat) : List Nat :=
  [n / 100000000 % 10, n / 10000000 % 10, n / 1000000 % 10, n / 100000 % 10,
   n / 10000 % 10, n / 1000 % 10, n / 100 % 10, n / 10 % 10, n % 10]

/-- get_locked_pid, scheduler.c lines 227-261: no object means no lock; a
parsed pid below 2 means an invalid lock, which is unlinked; a live pid
is returned; a dead owner's lock is unlinked. -/
def get_locked_pid (w : LockWorld) : Nat × LockWorld :=
  match w.shm with
  | none => (0, w)
  | some buf =>
    let pid := atoi buf
    if pid < 2 then (0, { w with shm := none })
    else if w.livePids.contains pid then (pid, w)
    else (0, { w with shm := none })

/-- lock_scheduler, scheduler.c lines 268-293: an existing live lock is
returned as the owner's pid; otherwise the object is created exclusively
(failure of O_EXCL gives -1) and the caller's pid is written, and the
function returns 0. -/
def lock_scheduler (w : LockWorld) : Int × LockWorld :=
  let r := get_locked_pid w
  if r.1 ≠ 0 then ((r.1 : Int), r.2)
  else
    match r.2.shm with
    | some _ => (-1, r.2)
    | none => (0, { r.2 with shm := some (fmt9 w.myPid) })

/-- The guard in main, scheduler.c line 644:
if(lock_scheduler() <= 0 && !get_locked_pid()) FATAL(...).
Returns true when main proceeds with initialization (installs the signal
handlers and enters the event loop) and false when it dies on FATAL. -/
def main_lock_check (w : LockWorld) : Bool × LockWorld :=
  let r := lock_scheduler w
  if r.1 ≤ 0 then
    let g := get_locked_pid r.2
    if g.1 = 0 then (false, g.2) else (true, g.2)
  else (true, r.2)

/- ************************************************************************ -/
/- set_usr_grp, scheduler.c lines 300-337                                   -/
/- ************************************************************************ -/

/-- The OS answers set_usr_grp consumes: getgrnam(PROJECT_GROUP),
getpwnam(PROJECT_USER) and the success of each privilege call. -/
structure PrivEnv where
  grp : Option Nat
  setgroups_ok : Bool
  setgid_ok : Bool
  setegid_ok : Bool
  pwd : Option Nat
  setuid_ok : Bool
  seteuid_ok : Bool
deriving DecidableEq

/-- How set_usr_grp ends: a normal return, exit(code), or the undefined
behaviour of dereferencing the NULL grp pointer. -/
inductive UsrGrpResult where
  | returned
  | exited (code : Int)
  | crashed
deriving DecidableEq

/-- set_usr_grp translated clause by clause: the if(!grp) body is empty
(only a TODO comment), so a missing group falls through to
setgroups(1, &grp->gr_gid), a NULL dereference; the setgroups return
value is never tested; setgid/setegid failure and setuid/seteuid failure
exit(-1); a missing user exits(-1). -/
def set_usr_grp (e : PrivEnv) : UsrGrpResult :=
  match e.grp with
  | none => .crashed
  | some _ =>
    if e.setgid_ok = false ∨ e.setegid_ok = false then .exited (-1)
    else
      match e.pwd with
      | none => .exited (-1)
      | some _ =>
        if e.setuid_ok = false ∨ e.seteuid_ok = false then .exited (-1)
        else .returned

/-- A world in which the live process 1234 already holds the lock while a
second scheduler with pid 5678 starts. -/
def lockedWorld : LockWorld := ⟨some (fmt9 1234), [1234], 5678⟩

/-- A world with no lock, in which the live process 1234 starts. -/
def lockFreeWorld : LockWorld := ⟨none, [1234], 1234⟩

/-- OS answers for set_usr_grp in which the group exists but setgroups
fails, and every other call succeeds. -/
def envGroupsFail : PrivEnv := ⟨some 120, false, true, true, some 1000, true, true⟩

/-- OS answers for set_usr_grp in which getgrnam finds no group. -/
def envNoGroup : PrivEnv := ⟨none, true, true, true, some 1000, true, true⟩

/- ************************************************************************ -/
/- helper lemmas                                                            -/
/- ************************************************************************ -/

theorem agent_init_preserve (s : SchedState) (j : Job) :
    (agent_init s j).1.exclTypes = s.exclTypes ∧
    (agent_init s j).1.pending = s.pending ∧
    (agent_init s j).1.deferred = s.deferred ∧
    (agent_init s j).1.lockout = s.lockout ∧
    (agent_init s j).1.closing = s.closing ∧
    (agent_init s j).1.terminated = s.terminated := by
  unfold agent_init
  split <;> simp

theorem is_exclusive_agent_init (s : SchedState) (j : Job) (t : Nat) :
    is_exclusive (agent_init s j).1 t = is_exclusive s t := by
  rw [is_exclusive, is_exclusive, (agent_init_preserve s j).1]

theorem pullGo_cons_excl (s : SchedState) (j : Job) (q : List Job)
    (h : is_exclusive s j.typ = true) :
    pullGo s (j :: q) = ({ s with pending := q }, [], some j) := by
  simp [pullGo, h]

theorem pullGo_cons_not_excl (s : SchedState) (j : Job) (q : List Job)
    (h : is_exclusive s j.typ = false) :
    pullGo s (j :: q) =
      ((pullGo (agent_init s j).1 q).1,
       ((agent_init s j).2, j) :: (pullGo (agent_init s j).1 q).2.1,
       (pullGo (agent_init s j).1 q).2.2) := by
  simp [pullGo, h]

theorem pullGo_split (pre : List Job) (s : SchedState) (e : Job) (rest : List Job)
    (hpre : ∀ j ∈ pre, is_exclusive s j.typ = false)
    (he : is_exclusive s e.typ = true) :
    (pullGo s (pre ++ e :: rest)).2.2 = some e ∧
    (pullGo s (pre ++ e :: rest)).2.1.map Prod.snd = pre ∧
    (pullGo s (pre ++ e :: rest)).1.pending = rest ∧
    (pullGo s (pre ++ e :: rest)).1.lockout = s.lockout ∧
    (pullGo s (pre ++ e :: rest)).1.closing = s.closing ∧
    (pullGo s (pre ++ e :: rest)).1.exclTypes = s.exclTypes ∧
    (pullGo s (pre ++ e :: rest)).1.terminated = s.terminated := by
  induction pre generalizing s with
  | nil =>
    rw [List.nil_append, pullGo_cons_excl s e rest he]
    exact ⟨rfl, rfl, rfl, rfl, rfl, rfl, rfl⟩
  | cons p pre ih =>
    have hp : is_exclusive s p.typ = false := hpre p (List.mem_cons_self p pre)
    obtain ⟨h1, _, _, h4, h5, h6⟩ := agent_init_preserve s p
    have hpre' : ∀ j ∈ pre, is_exclusive (agent_init s p).1 j.typ = false := by
      intro j hj
      rw [is_exclusive_agent_init]
      exact hpre j (List.mem_cons_of_mem p hj)
    have he' : is_exclusive (agent_init s p).1 e.typ = true := by
      rw [is_exclusive_agent_init]; exact he
    obtain ⟨g1, g2, g3, g4, g5, g6, g7⟩ := ih (agent_init s p).1 hpre' he'
    rw [List.cons_append, pullGo_cons_not_excl s p (pre ++ e :: rest) hp]
    exact ⟨g1, by simp [g2], g3, by rw [g4, h4], by rw [g5, h5],
      by rw [g6, h1], by rw [g7, h6]⟩

theorem pullGo_terminated (q : List Job) (s : SchedState) :
    (pullGo s q).1.terminated = s.terminated := by
  induction q generalizing s with
  | nil => simp [pullGo]
  | cons j rest ih =>
    by_cases hj : is_exclusive s j.typ = true
    · rw [pullGo_cons_excl s j rest hj]
    · have hj' : is_exclusive s j.typ = false := by simpa using hj
      rw [pullGo_cons_not_excl s j rest hj']
      show (pullGo (agent_init s j).1 rest).1.terminated = s.terminated
      rw [ih (agent_init s j).1, (agent_init_preserve s j).2.2.2.2.2]

theorem set_append_cons (pre : List Nat) (a : Nat) (l : List Nat) (p : Nat) :
    (pre ++ a :: l).set pre.length p = pre ++ p :: l := by
  induction pre with
  | nil => rfl
  | cons x xs ih => simp [ih]

theorem writeAll_append (ps : List Nat) :
    ∀ (pre l : List Nat), ps.length ≤ l.length →
    writeAll (pre ++ l) pre.length ps = pre ++ ps ++ l.drop ps.length := by
  induction ps with
  | nil =>
    intro pre l _
    simp [writeAll]
  | cons p ps ih =>
    intro pre l h
    cases l with
    | nil => simp at h
    | cons a l' =>
      rw [writeAll, set_append_cons]
      have hlen : pre.length + 1 = (pre ++ [p]).length := by simp
      have hsplit : pre ++ p :: l' = (pre ++ [p]) ++ l' := by simp
      rw [hlen, hsplit, ih (pre ++ [p]) l' (by simpa using h)]
      simp

theorem chld_sig_batch (n : Nat) (dead : List Nat) (h : dead.length ≤ n) :
    (chld_sig n dead).1 = dead ++ List.replicate (n + 1 - dead.length) 0 := by
  have hw := writeAll_append dead [] (List.replicate (n + 1) 0)
    (by simp; omega)
  simp only [List.nil_append, List.length_nil] at hw
  rw [chld_sig]
  simp only [hw, List.drop_replicate, List.nil_append]

theorem atoi_fmt9 (n : Nat) (h : n < 1000000000) : atoi (fmt9 n) = n := by
  simp only [atoi, fmt9, List.foldl]
  omega

theorem tick_fin_some (n_agents n_jobs : Nat)
    (pr : SchedState × List (Option Host × Job) × Option Job) (j : Job)
    (hj : pr.2.2 = some j) :
    tick_fin n_agents n_jobs pr =
      if n_agents = 0 ∧ n_jobs = 0 then
        ⟨{ (agent_init { pr.1 with deferred := some j } j).1 with
             lockout := true, deferred := none },
          pr.2.1 ++ [((agent_init { pr.1 with deferred := some j } j).2, j)]⟩
      else ⟨{ pr.1 with deferred := some j }, pr.2.1⟩ := by
  obtain ⟨p1, p21, p22⟩ := pr
  simp only at hj
  subst hj
  rfl

theorem tick_fin_none (n_agents n_jobs : Nat)
    (pr : SchedState × List (Option Host × Job) × Option Job)
    (hj : pr.2.2 = none) :
    tick_fin n_agents n_jobs pr = ⟨{ pr.1 with deferred := none }, pr.2.1⟩ := by
  obtain ⟨p1, p21, p22⟩ := pr
  simp only at hj
  subst hj
  rfl

theorem tick_fin_terminated (n_agents n_jobs : Nat)
    (pr : SchedState × List (Option Host × Job) × Option Job) :
    (tick_fin n_agents n_jobs pr).state.terminated = pr.1.terminated := by
  obtain ⟨p1, p21, p22⟩ := pr
  cases p22 with
  | none => rfl
  | some j =>
    by_cases hd : n_agents = 0 ∧ n_jobs = 0
    · rw [tick_fin_some _ _ _ j rfl, if_pos hd]
      exact (agent_init_preserve _ j).2.2.2.2.2
    · rw [tick_fin_some _ _ _ j rfl, if_neg hd]

theorem tick_rest_terminated (s : SchedState) (n_agents n_jobs : Nat) :
    (tick_rest s n_agents n_jobs).state.terminated = s.terminated := by
  simp only [tick_rest]
  rw [tick_fin_terminated]
  split <;> split <;> (try rw [pullGo_terminated]) <;> rfl

/- ************************************************************************ -/
/- claim theorems                                                           -/
/- ************************************************************************ -/

/-- C5: on every tick in which closing is set and the live-agent and
active-job counts are both zero, update_scheduler terminates the event
loop and returns at once, launching nothing and leaving the state
otherwise untouched; when any of the three conditions fails, that
branch does not terminate the loop. -/
theorem c5_close_drain (s : SchedState) :
    (s.closing = true ∧ num_agents s = 0 ∧ active_jobs s = 0 →
      update_scheduler s = ⟨{ s with terminated := true }, []⟩) ∧
    (¬(s.closing = true ∧ num_agents s = 0 ∧ active_jobs s = 0) →
      (update_scheduler s).state.terminated = s.terminated) := by
  constructor
  · intro h
    simp only [update_scheduler, if_pos h]
  · intro h
    simp only [update_scheduler, if_neg h]
    exact tick_rest_terminated s _ _

/-- C5 witness: in the concrete drained closing state the tick terminates
the loop and launches nothing. -/
theorem c5_close_drain_witness :
    update_scheduler stateClose = ⟨{ stateClose with terminated := true }, []⟩ :=
  (c5_close_drain stateClose).1 (by decide)

/-- C1 counterexample: the claim says a pulled exclusive job is launched
only in a LATER tick. In stateE the exclusive jobB is pulled and
launched within one and the same tick (the deferred slot is empty at
entry and already cleared again at exit). Moreover in state2 the
deferred jobB is launched in a tick during which the agent of jobA is
live, so the launch tick is not one in which the live-agent count is
zero; only the counts read at tick entry are. -/
theorem c1_counterexample :
    stateE.deferred = none ∧ stateE.lockout = false ∧
    is_exclusive stateE jobB.typ = true ∧
    (update_scheduler stateE).launches.map Prod.snd = [jobB] ∧
    (update_scheduler stateE).state.lockout = true ∧
    (update_scheduler stateE).state.deferred = none ∧
    (update_scheduler state2).launches.map Prod.snd = [jobA, jobB] ∧
    num_agents (update_scheduler state2).state = 2 := by
  decide

/-- C1 (amended): in the tick callback, whenever the deferred-job slot is
empty, lockout is false, closing is not set and the pull loop reaches a
job whose type is exclusive, the policy stores that job in the deferred
slot and stops pulling further jobs; the deferred job is launched in
the first tick, possibly the same one, at whose ENTRY the live-agent
count and active-job count are both read as zero, at which point
lockout is set to true and the deferred slot is cleared. -/
theorem c1_exclusive_defer (s : SchedState) (pre : List Job) (e : Job)
    (rest : List Job)
    (hd : s.deferred = none) (hl : s.lockout = false) (hc : s.closing = false)
    (hp : s.pending = pre ++ e :: rest)
    (hpre : ∀ j ∈ pre, is_exclusive s j.typ = false)
    (he : is_exclusive s e.typ = true) :
    ((num_agents s = 0 ∧ active_jobs s = 0) →
        (update_scheduler s).launches.map Prod.snd = pre ++ [e] ∧
        (update_scheduler s).state.lockout = true ∧
        (update_scheduler s).state.deferred = none) ∧
    (¬(num_agents s = 0 ∧ active_jobs s = 0) →
        (update_scheduler s).launches.map Prod.snd = pre ∧
        (update_scheduler s).state.deferred = some e ∧
        (update_scheduler s).state.lockout = false ∧
        (update_scheduler s).state.pending = rest) ∧
    (∀ t : SchedState, t.deferred = some e → t.closing = false →
        num_agents t = 0 → active_jobs t = 0 →
        (update_scheduler t).launches.map Prod.snd = [e] ∧
        (update_scheduler t).state.lockout = true ∧
        (update_scheduler t).state.deferred = none) := by
  have hnc : ¬(s.closing = true ∧ num_agents s = 0 ∧ active_jobs s = 0) := by
    simp [hc]
  have hns1 : ¬(s.lockout = true ∧ num_agents s = 0 ∧ active_jobs s = 0) := by
    simp [hl]
  have hguard : s.deferred = none ∧ s.lockout = false := ⟨hd, hl⟩
  obtain ⟨g1, g2, g3, g4, g5, g6, g7⟩ := pullGo_split pre s e rest hpre he
  refine ⟨?_, ?_, ?_⟩
  · intro hcnt
    simp only [update_scheduler, if_neg hnc, tick_rest, if_neg hns1, hp]
    rw [if_pos hguard, tick_fin_some _ _ _ e g1, if_pos hcnt]
    refine ⟨?_, rfl, rfl⟩
    simp [g2]
  · intro hcnt
    simp only [update_scheduler, if_neg hnc, tick_rest, if_neg hns1, hp]
    rw [if_pos hguard, tick_fin_some _ _ _ e g1, if_neg hcnt]
    exact ⟨g2, rfl, by simp [g4, hl], by simp [g3]⟩
  · intro t htd htc htA htJ
    have hnc' : ¬(t.closing = true ∧ num_agents t = 0 ∧ active_jobs t = 0) := by
      simp [htc]
    simp only [update_scheduler, if_neg hnc', tick_rest]
    by_cases hlk : t.lockout = true ∧ num_agents t = 0 ∧ active_jobs t = 0
    · rw [if_pos hlk]
      have hguard : ¬({ t with lockout := false }.deferred = none ∧
          { t with lockout := false }.lockout = false) := by
        simp [htd]
      rw [if_neg hguard]
      rw [tick_fin_some _ _ _ e (by simpa using htd), if_pos ⟨htA, htJ⟩]
      exact ⟨rfl, rfl, rfl⟩
    · rw [if_neg hlk]
      by_cases hg : t.deferred = none ∧ t.lockout = false
      · rw [htd] at hg
        simp at hg
      · rw [if_neg hg]
        rw [tick_fin_some _ _ _ e (by simpa using htd), if_pos ⟨htA, htJ⟩]
        exact ⟨rfl, rfl, rfl⟩

/-- C1 witness: in state2 (queue holds the non-exclusive jobA then the
exclusive jobB, nothing live at entry) the tick launches jobA and then
jobB, sets lockout and clears the deferred slot. -/
theorem c1_exclusive_defer_witness :
    (update_scheduler state2).launches.map Prod.snd = [jobA] ++ [jobB] ∧
    (update_scheduler state2).state.lockout = true ∧
    (update_scheduler state2).state.deferred = none :=
  (c1_exclusive_defer state2 [jobA] jobB [] rfl rfl rfl rfl
    (by decide) (by decide)).1 (by decide)

/-- C2: refuted on the code. From the empty initial configuration, two
queue deliveries and one tick reach a state in which lockout is true
while two agents are live, one of them of a non-exclusive type: the
final clause of update_scheduler tests the agent and job counts read at
tick entry, not the counts after the pull loop launched jobA's agent. -/
theorem c2_lockout_invariant_violated :
    Relation.ReflTransGen SchedulerStep state0 statePost ∧
    statePost.lockout = true ∧
    num_agents statePost = 2 ∧
    (∃ a ∈ statePost.agents, is_exclusive statePost a.jobTyp = false) := by
  refine ⟨?_, by decide, by decide, by decide⟩
  have h1 : SchedulerStep state0 state1 := SchedulerStep.newJob state0 jobA
  have h2 : SchedulerStep state1 state2 := SchedulerStep.newJob state1 jobB
  have h3 : SchedulerStep state2 statePost := SchedulerStep.tick state2
  exact Relation.ReflTransGen.tail
    (Relation.ReflTransGen.tail (Relation.ReflTransGen.single h1) h2) h3

/-- C3: refuted on the code. In stateNoHost the only host is full, yet the
tick calls agent_init with the missing host for BOTH pending
non-exclusive jobs: the pull loop neither stops at the first failure
nor releases the jobs, which are gone from the queue and not running
afterwards (the release-and-break path is commented out in the source,
line 192: TODO handle no available host). -/
theorem c3_no_host_not_handled :
    get_host stateNoHost 1 = none ∧
    (update_scheduler stateNoHost).launches =
      [(none, ⟨3, 0⟩), (none, ⟨4, 0⟩)] ∧
    (update_scheduler stateNoHost).state.pending = [] ∧
    (update_scheduler stateNoHost).state.running = stateNoHost.running := by
  decide

/-- C4: refuted on the code. With a live owner 1234 holding the lock, the
second scheduler's lock_scheduler returns 1234, and main's guard
(lock_scheduler() <= 0 && !get_locked_pid()) is then false, so the
second process CONTINUES initialization, installs the signal handlers
and enters the event loop instead of exiting. -/
theorem c4_second_instance_not_stopped :
    (lock_scheduler lockedWorld).1 = 1234 ∧
    (main_lock_check lockedWorld).1 = true := by
  decide

/-- C6: refuted on the code. The SIGHUP case of prnt_sig calls
load_config directly inside the signal handler, clearing and reloading
the host and meta-agent registries there and then; it enqueues no event
at all, in particular no CONFIG_RELOAD event for the loop thread. -/
theorem c6_sighup_reload_in_handler :
    prnt_sig Sig.SIGHUP = [HandlerAction.call_load_config] ∧
    (prnt_sig Sig.SIGHUP).contains
      (HandlerAction.enqueue SchedEvent.config_reload) = false := by
  decide

/-- C7: on each SIGCHLD delivery chld_sig drains waitpid(-1, WNOHANG),
collects every reaped pid, in order, into the one batch list it
allocated, and signals exactly one agent_death event carrying that
whole batch. -/
theorem c7_single_death_event (n : Nat) (dead : List Nat)
    (h : dead.length ≤ n) :
    (chld_sig n dead).2 = [SchedEvent.agent_death (chld_sig n dead).1] ∧
    ((chld_sig n dead).2).length = 1 ∧
    ((chld_sig n dead).1).take dead.length = dead ∧
    ∀ p ∈ dead, p ∈ (chld_sig n dead).1 := by
  have hb := chld_sig_batch n dead h
  refine ⟨rfl, rfl, ?_, ?_⟩
  · rw [hb]
    exact List.take_left' rfl
  · intro p hp
    rw [hb]
    exact List.mem_append_left _ hp

/-- C7 witness: with two live agents and dead children 5 and 7, one
agent_death event is signalled and its batch starts with 5, 7. -/
theorem c7_single_death_event_witness :
    (chld_sig 2 [5, 7]).2 = [SchedEvent.agent_death (chld_sig 2 [5, 7]).1] ∧
    ((chld_sig 2 [5, 7]).1).take 2 = [5, 7] := by
  have h := c7_single_death_event 2 [5, 7] (by decide)
  exact ⟨h.1, h.2.2.1⟩

/-- C8: round-trip of the lock protocol. With no pre-existing lock,
lock_scheduler succeeds (returns 0) and stores the caller's pid as the
nine zero-padded decimal digits of sprintf's %-9.9d, and for a pid of
at least 2 that is still alive, get_locked_pid parses the stored
contents back to exactly that pid. -/
theorem c8_lock_roundtrip (w : LockWorld) (h0 : w.shm = none)
    (h1 : 2 ≤ w.myPid) (h2 : w.myPid < 1000000000)
    (h3 : w.livePids.contains w.myPid = true) :
    (lock_scheduler w).1 = 0 ∧
    (lock_scheduler w).2.shm = some (fmt9 w.myPid) ∧
    (fmt9 w.myPid).length = 9 ∧
    (∀ d ∈ fmt9 w.myPid, d < 10) ∧
    (get_locked_pid (lock_scheduler w).2).1 = w.myPid := by
  have hlock : lock_scheduler w = (0, { w with shm := some (fmt9 w.myPid) }) := by
    simp [lock_scheduler, get_locked_pid, h0]
  refine ⟨by rw [hlock], by rw [hlock], rfl, ?_, ?_⟩
  · intro d hd
    simp only [fmt9, List.mem_cons, List.not_mem_nil, or_false] at hd
    rcases hd with rfl | rfl | rfl | rfl | rfl | rfl | rfl | rfl | rfl <;> omega
  · rw [hlock]
    simp only [get_locked_pid, atoi_fmt9 w.myPid h2]
    rw [if_neg (by omega)]
    have hmem : w.myPid ∈ w.livePids := by simpa using h3
    simp [hmem]

/-- C8 witness: the round trip at the concrete pid 1234. -/
theorem c8_lock_roundtrip_witness :
    (lock_scheduler lockFreeWorld).1 = 0 ∧
    (get_locked_pid (lock_scheduler lockFreeWorld).2).1 = 1234 := by
  have h := c8_lock_roundtrip lockFreeWorld rfl (by decide) (by decide)
    (by decide)
  exact ⟨h.1, h.2.2.2.2⟩

/-- C9: refuted on the code. set_usr_grp returns normally although
setgroups failed (its return value is never tested), and when the
configured group does not exist the empty if(!grp) body (only a TODO
comment) falls through to dereferencing the NULL group pointer instead
of exiting with a negative code. -/
theorem c9_priv_drop_not_always_fatal :
    set_usr_grp envGroupsFail = UsrGrpResult.returned ∧
    set_usr_grp envNoGroup = UsrGrpResult.crashed := by
  decide

/-- C10: under the precondition that the waitpid loop reaps at most
num_agents() pids, every store lands inside the num_agents()+1
allocated slots (the batch keeps exactly that length and its prefix is
the reaped pids, so no store was lost to the out-of-range no-op), and
the entry right after the reaped pids is the zero terminator g_new0
put there. -/
theorem c10_batch_in_bounds (n : Nat) (dead : List Nat)
    (h : dead.length ≤ n) :
    ((chld_sig n dead).1).length = n + 1 ∧
    ((chld_sig n dead).1).take dead.length = dead ∧
    ((chld_sig n dead).1).getD dead.length 1 = 0 := by
  have hb := chld_sig_batch n dead h
  refine ⟨?_, ?_, ?_⟩
  · rw [hb]
    simp
    omega
  · rw [hb]
    exact List.take_left' rfl
  · rw [hb, List.getD_eq_getElem?_getD,
      List.getElem?_append_right (Nat.le_refl _)]
    have hk : 1 ≤ n + 1 - dead.length := by omega
    cases hrep : n + 1 - dead.length with
    | zero => omega
    | succ m => simp [List.replicate, hrep]

/-- C10 witness: with two agents and dead children 5 and 7 the batch is
three slots long, starts 5, 7 and carries the zero terminator next. -/
theorem c10_batch_in_bounds_witness :
    ((chld_sig 2 [5, 7]).1).length = 3 ∧
    ((chld_sig 2 [5, 7]).1).getD 2 1 = 0 := by
  have h := c10_batch_in_bounds 2 [5, 7] (by decide)
  exact ⟨h.1, h.2.2⟩

end Fossology
